import Mathlib

/-!
Verification development for the `pgdb` DB-API layer of PygreSQL
(`module/pgdb.py`).  The definitions below are a shallow embedding of the
Python source: pure helpers become Lean functions, the stateful
Cursor/Connection methods become explicit state-passing functions over a
`World` record, and the native `_pg` connection (an external collaborator)
is modelled as an oracle `NativeBehavior` together with a trace of the SQL
statements issued through it.
-/

set_option maxHeartbeats 1000000

/-- A single quote character (ASCII 39). -/
def sqChar : Char := Char.ofNat 39

/-- The one-character string consisting of a single quote. -/
def sqStr : String := String.mk [sqChar]

/-- The DB-API exception taxonomy, restricted to the distinctions the code
actually makes: `InterfaceError` and `DatabaseError` are both subclasses of
`Error`; `OperationalError` is a subclass of `DatabaseError`; `otherError`
stands for any Python exception outside the `Error` hierarchy
(for example `TypeError` or `ValueError`). -/
inductive PgExc where
  | interfaceError (msg : String)
  | databaseError (msg : String)
  | operationalError (msg : String)
  | otherError (msg : String)
deriving DecidableEq, Repr

/-- `isinstance(e, DatabaseError)`: `OperationalError` is a subclass. -/
def PgExc.isDatabaseError : PgExc → Bool
  | .databaseError _ => true
  | .operationalError _ => true
  | _ => false

/-- `isinstance(e, Error)`: everything except foreign exceptions. -/
def PgExc.isError : PgExc → Bool
  | .otherError _ => false
  | _ => true

/-- `str(e)`: the message carried by the exception. -/
def PgExc.msg : PgExc → String
  | .interfaceError m => m
  | .databaseError m => m
  | .operationalError m => m
  | .otherError m => m

/-- `_op_error(msg)` from the source: an `OperationalError`
(the `sqlstate = None` attribute is not modelled). -/
def _op_error (msg : String) : PgExc := .operationalError msg

/-- `_db_error(msg)` from the source with the default class. -/
def _db_error (msg : String) : PgExc := .databaseError msg

/-- A Python float value, modelled symbolically: the three IEEE sentinels
are explicit constructors and every finite value is carried as an exact
rational (IEEE rounding of finite values is abstracted away; no claim
depends on it). -/
inductive PyFloat where
  | nan
  | inf
  | ninf
  | finite (q : ℚ)
deriving DecidableEq, Repr

/-- `math.isinf`. -/
def PyFloat.isinf : PyFloat → Bool
  | .inf => true
  | .ninf => true
  | _ => false

/-- `math.isnan`. -/
def PyFloat.isnan : PyFloat → Bool
  | .nan => true
  | _ => false

/-- Characters stripped by Python `float()` around a numeric literal. -/
def isPySpace (c : Char) : Bool :=
  c = ' ' || c = Char.ofNat 9 || c = Char.ofNat 10 || c = Char.ofNat 13

/-- Numeric value of a list of decimal digits. -/
def digitsVal (ds : List Char) : Nat :=
  ds.foldl (fun a c => a * 10 + (c.toNat - 48)) 0

/-- Parse the digits of an exponent part; the whole rest of the input must
be digits. -/
def parseExpDigits (cs : List Char) (neg : Bool) : Option Int :=
  let ds := cs.takeWhile Char.isDigit
  let rest := cs.dropWhile Char.isDigit
  if ds.isEmpty || !rest.isEmpty then none
  else some (if neg then -(digitsVal ds : Int) else (digitsVal ds : Int))

/-- Parse an optionally signed exponent body. -/
def parseExpSigned : List Char → Option Int
  | '+' :: rest => parseExpDigits rest false
  | '-' :: rest => parseExpDigits rest true
  | rest => parseExpDigits rest false

/-- Parse the optional exponent suffix of a float literal. -/
def parseExp : List Char → Option Int
  | [] => some 0
  | 'e' :: rest => parseExpSigned rest
  | 'E' :: rest => parseExpSigned rest
  | _ => none

/-- Parse an unsigned decimal float literal: digits, an optional fraction,
an optional exponent; at least one digit must be present. -/
def parseNumeric (cs : List Char) (neg : Bool) : Option PyFloat :=
  let ip := cs.takeWhile Char.isDigit
  let rest1 := cs.dropWhile Char.isDigit
  let fprest :=
    match rest1 with
    | '.' :: r => (r.takeWhile Char.isDigit, r.dropWhile Char.isDigit)
    | _ => ([], rest1)
  let fp := fprest.1
  let rest2 := fprest.2
  if ip.isEmpty && fp.isEmpty then none
  else
    match parseExp rest2 with
    | none => none
    | some e =>
      let mant : ℚ := (digitsVal ip : ℚ) + (digitsVal fp : ℚ) / ((10 : ℚ) ^ fp.length)
      let value : ℚ := mant * (10 : ℚ) ^ e
      some (.finite (if neg then -value else value))

/-- Parse the body of a float literal after the sign: the three textual
sentinels accepted case-insensitively by Python `float()`, or a decimal
literal. -/
def parseUnsigned (cs : List Char) (neg : Bool) : Option PyFloat :=
  let low := String.mk (cs.map Char.toLower)
  if low = "inf" || low = "infinity" then
    some (if neg then .ninf else .inf)
  else if low = "nan" then some .nan
  else parseNumeric cs neg

/-- Model of the Python builtin `float(str)`: strips surrounding
whitespace, reads an optional sign, then either an IEEE sentinel word or a
decimal literal; `none` models the `ValueError` raised on anything else. -/
def pyFloatOfString (s : String) : Option PyFloat :=
  let cs := ((s.data.dropWhile isPySpace).reverse.dropWhile isPySpace).reverse
  match cs with
  | '+' :: rest => parseUnsigned rest false
  | '-' :: rest => parseUnsigned rest true
  | rest => parseUnsigned rest false

/-- `_cast_float(value)` from the source: try `float(value)`; on a
`ValueError`, map the exact sentinel spellings used by PostgreSQL and
re-raise otherwise.  The error side models the propagated `ValueError`
message. -/
def _cast_float (value : String) : Except String PyFloat :=
  match pyFloatOfString value with
  | some f => .ok f
  | none =>
    if value = "NaN" then .ok .nan
    else if value = "Infinity" then .ok .inf
    else if value = "-Infinity" then .ok .ninf
    else .error ("could not convert string to float: " ++ value)

/-- A Python value of one of the runtime kinds that can reach
`Cursor._quote`.  Constructors mirror the `isinstance` dispatch of the
source: `datetimeV` covers `datetime`, `date`, `time` and `timedelta`
(carrying the text `str(val)` produces), `strV` is a plain string,
`binaryV` is the `Binary` bytes wrapper, `decimalV` carries the text of a
`Decimal`, `pgReprV` is any object whose `__pg_repr__` method returns the
carried text, and `otherV` is a value of any unsupported type (carrying
the type name used in the error message). -/
inductive PyVal where
  | datetimeV (s : String)
  | strV (s : String)
  | binaryV (b : List Nat)
  | intV (i : Int)
  | floatV (f : PyFloat)
  | noneV
  | listV (vs : List PyVal)
  | decimalV (s : String)
  | pgReprV (s : String)
  | otherV (tyName : String)
deriving Repr

/-- Model of the native `escape_string` primitive: doubles every embedded
single quote (the behavior assumed by the specification). -/
def escChars : List Char → List Char
  | [] => []
  | c :: r => if c = sqChar then sqChar :: sqChar :: escChars r else c :: escChars r

/-- Model of the native string-escaping primitive, `cnx.escape_string`. -/
def escape_string (s : String) : String := String.mk (escChars s.data)

/-- One lowercase hex digit. -/
def hexDigit (n : Nat) : Char :=
  if n < 10 then Char.ofNat (48 + n) else Char.ofNat (87 + n)

/-- Model of the native binary-escaping primitive, `cnx.escape_bytea`,
rendering bytes in the PostgreSQL hex format. -/
def escape_bytea (b : List Nat) : String :=
  String.mk ('\\' :: 'x' :: (b.flatMap (fun n => [hexDigit (n / 16 % 16), hexDigit (n % 16)])))

/-- Textual representation of a finite float, abstracting Python
`str(float)` (no claim depends on its exact shape). -/
def floatRepr (q : ℚ) : String :=
  toString q.num ++ "/" ++ toString q.den

/-- `str()` of the (already escaped) value, wrapped in single quotes:
the `val = "'%s'" % val` step of `Cursor._quote`. -/
def squoted (s : String) : String := sqStr ++ s ++ sqStr

/-- `Cursor._quote(val)` from the source, as the final literal text that
reaches `%`-substitution (the source returns ints, floats and decimals
unconverted and lets `str()` render them during substitution; here that
rendering is applied immediately).  An `InterfaceError` is raised for any
value outside the supported kinds, including inside a nested sequence. -/
def _quote : PyVal → Except PgExc String
  | .datetimeV s => .ok (squoted (escape_string s))
  | .strV s => .ok (squoted (escape_string s))
  | .binaryV b => .ok (squoted (escape_bytea b))
  | .intV i => .ok (toString i)
  | .floatV f =>
    match f with
    | .inf => .ok (squoted "Infinity")
    | .ninf => .ok (squoted "-Infinity")
    | .nan => .ok (squoted "NaN")
    | .finite q => .ok (floatRepr q)
  | .noneV => .ok "NULL"
  | .listV vs =>
    match quoteList vs with
    | .error e => .error e
    | .ok ss => .ok ("(" ++ String.intercalate "," ss ++ ")")
  | .decimalV s => .ok s
  | .pgReprV s => .ok s
  | .otherV tyName => .error (.interfaceError ("do not know how to handle type " ++ tyName))
where
  /-- `map(lambda v: str(self._quote(v)), val)`, left to right, the first
  failing element propagating its exception. -/
  quoteList : List PyVal → Except PgExc (List String)
  | [] => .ok []
  | v :: vs =>
    match _quote v with
    | .error e => .error e
    | .ok s =>
      match quoteList vs with
      | .error e => .error e
      | .ok ss => .ok (s :: ss)

/-- The supported-kinds predicate of the claim: every quotable runtime
kind, recursively through sequences; `otherV` is outside the set. -/
def PyVal.supported : PyVal → Bool
  | .listV vs => supportedList vs
  | .otherV _ => false
  | _ => true
where
  supportedList : List PyVal → Bool
  | [] => true
  | v :: vs => v.supported && supportedList vs

/-- Model of Python percent-formatting restricted to positional `%s`
placeholders (the form `executemany` produces for sequences): each `%s`
is replaced, left to right, by the next argument. -/
def pyFormatChars : List Char → List String → List Char
  | [], _ => []
  | '%' :: 's' :: rest, a :: args => a.data ++ pyFormatChars rest args
  | c :: rest, args => c :: pyFormatChars rest args

/-- `string % tuple(...)` over a template and already-rendered
arguments. -/
def pyFormat (s : String) (args : List String) : String :=
  String.mk (pyFormatChars s.data args)

/-- `Cursor._quoteparams(string, parameters)` for the sequence case:
quote every parameter (left to right, the first failure propagating), then
substitute positionally.  (The mapping-parameter case of the source is not
needed by any claim and is not modelled.) -/
def _quoteparams (op : String) (ps : List PyVal) : Except PgExc String :=
  match _quote.quoteList ps with
  | .error e => .error e
  | .ok qs => .ok (pyFormat op qs)

/-- The `sql = self._quoteparams(operation, parameters) if parameters
else operation` step of the `executemany` loop. -/
def quoteStep (op : String) (ps : List PyVal) : Except PgExc String :=
  if ps.isEmpty then .ok op else _quoteparams op ps

/-- The SQL text a parameter set contributes to the batch, when its
quoting succeeds. -/
def substSql (op : String) (ps : List PyVal) : Option String :=
  (quoteStep op ps).toOption

/-- The cached descriptor tuple built by `TypeCache.getdescr`:
`(typname, None, int(typlen), None, None, None)` — the `None`
placeholders are implicit. -/
structure TypeDescr where
  typname : String
  internal_size : Int
deriving DecidableEq, Repr

/-- The catalog query text issued by `TypeCache.getdescr` for an oid. -/
def catalogSql (oid : Nat) : String :=
  "SELECT typname, typlen FROM pg_type WHERE oid=" ++ toString oid

/-- `TypeCache.getdescr(oid)`: return the cached descriptor if present;
otherwise issue one catalog lookup through the native connection (modelled
by the `catalog` oracle, with the statement recorded on the trace), cache
the descriptor and return it.  The cache is the association list, the
returned triple is (descriptor, new cache, new trace). -/
def TypeCache.getdescr (catalog : Nat → String × Int)
    (cache : List (Nat × TypeDescr)) (trace : List String) (oid : Nat) :
    TypeDescr × List (Nat × TypeDescr) × List String :=
  match cache.lookup oid with
  | some d => (d, cache, trace)
  | none =>
    let r := catalog oid
    let d : TypeDescr := ⟨r.1, r.2⟩
    (d, (oid, d) :: cache, trace ++ [catalogSql oid])

/-- The `CursorDescription` named tuple; `display_size`, `precision`,
`scale` and `null_ok` are never populated by this layer. -/
structure CursorDescription where
  name : String
  type_code : String
  display_size : Option Nat
  internal_size : Int
  precision : Option Nat
  scale : Option Nat
  null_ok : Option Bool
deriving DecidableEq, Repr

/-- One entry of `source.listinfo()`: the column name (`info[1]`) and the
server type oid (`info[2]`). -/
structure ColInfo where
  name : String
  oid : Nat
deriving DecidableEq, Repr

/-- The list comprehension building `description` in `executemany`:
`[CursorDescription(info[1], *getdescr(info[2])) for info in listinfo]`,
threading the shared type cache and the statement trace left to right. -/
def resolveDescrs (catalog : Nat → String × Int)
    (cache : List (Nat × TypeDescr)) (trace : List String) :
    List ColInfo → List CursorDescription × List (Nat × TypeDescr) × List String
  | [] => ([], cache, trace)
  | ci :: rest =>
    let r1 := TypeCache.getdescr catalog cache trace ci.oid
    let rrest := resolveDescrs catalog r1.2.1 r1.2.2 rest
    (⟨ci.name, r1.1.typname, none, r1.1.internal_size, none, none, none⟩ :: rrest.1,
      rrest.2.1, rrest.2.2)

/-- The constant `RESULT_DQL` imported from the native `_pg` module
(the discriminant for row-returning results). -/
def RESULT_DQL : Nat := 4

/-- The state of the native statement source after a successful
`source.execute`: the value returned by `execute` itself (`rows`, with `0`
standing for the falsy `None`), and the `resulttype`, `ntuples`,
`listinfo()` and `oidstatus()` observations the cursor may make
afterwards. -/
structure ExecOk where
  rows : Nat
  resulttype : Nat
  ntuples : Nat
  listinfo : List ColInfo
  oidstatus : Option Nat
deriving DecidableEq, Repr

/-- Outcome of handing one SQL text to the native connection. -/
inductive ExecResult where
  | ok (r : ExecOk)
  | fail (e : PgExc)

/-- The native connection and catalog, modelled as oracles: `exec` maps
the trace of statements already issued plus the new statement text to an
outcome, and `catalog` resolves a type oid to `(typname, typlen)`. -/
structure NativeBehavior where
  exec : List String → String → ExecResult
  catalog : Nat → String × Int

/-- The mutable attributes of a `Cursor` that the claims observe. -/
structure CursorState where
  description : Option (List CursorDescription)
  colnames : Option (List String)
  coltypes : Option (List String)
  rowcount : Int
  arraysize : Nat
  lastrowid : Option Nat
deriving DecidableEq, Repr

/-- The attribute values set by `Cursor.__init__`. -/
def freshCursor : CursorState :=
  ⟨none, none, none, -1, 1, none⟩

/-- The mutable attributes of a `Connection`: whether `_cnx` is still
held, the `_tnx` transaction flag, and the `TypeCache` contents. -/
structure ConnState where
  cnxOpen : Bool
  tnx : Bool
  typeCache : List (Nat × TypeDescr)
deriving DecidableEq, Repr

/-- One connection, one cursor, and the trace of every SQL text issued
through the native connection (by any source object of the
connection). -/
structure World where
  conn : ConnState
  cursor : CursorState
  trace : List String
deriving DecidableEq, Repr

/-- The state reached by a stateful operation whether it returned
normally or raised. -/
def outWorld : Except (PgExc × World) World → World
  | .ok w => w
  | .error r => r.2

/-- The local state of the `for parameters in seq_of_parameters` loop of
`executemany`: the accumulated `rowcount` local, the `sql` local (kept for
error messages), the cursor attributes, and the statement trace. -/
structure LoopState where
  rowcount : Nat
  sql : String
  cur : CursorState
  trace : List String

/-- The outer `except` clauses of `executemany`: a `DatabaseError` passes
through unchanged, any other `Error` is wrapped as a `DatabaseError`
naming the failing SQL, anything else as an `OperationalError`. -/
def wrapExecErr (sql : String) (e : PgExc) : PgExc :=
  if e.isDatabaseError then e
  else if e.isError then
    _db_error ("error in " ++ squoted sql ++ ": " ++ squoted e.msg ++ " ")
  else
    _op_error ("internal error in " ++ squoted sql ++ ": " ++ e.msg)

/-- The statement loop of `Cursor.executemany`: for each parameter set,
produce the SQL (the template verbatim when the set is empty), execute it
through the native source, and accumulate the affected-row count when it
is truthy (setting the cursor rowcount to −1 otherwise).  Returns the
final loop state and the source observations of the last executed
statement. -/
def execLoop (nb : NativeBehavior) (op : String) :
    List (List PyVal) → LoopState → Option ExecOk →
    Except (PgExc × LoopState) (LoopState × Option ExecOk)
  | [], st, last => .ok (st, last)
  | ps :: rest, st, last =>
    match quoteStep op ps with
    | .error e => .error (wrapExecErr st.sql e, st)
    | .ok sql =>
      match nb.exec st.trace sql with
      | .fail e =>
        .error (wrapExecErr sql e, { st with sql := sql, trace := st.trace ++ [sql] })
      | .ok r =>
        let st1 : LoopState :=
          if r.rows ≠ 0 then
            { st with
              sql := sql
              trace := st.trace ++ [sql]
              rowcount := st.rowcount + r.rows }
          else
            { st with
              sql := sql
              trace := st.trace ++ [sql]
              cur := { st.cur with rowcount := -1 } }
        execLoop nb op rest st1 (some r)

/-- The part of `Cursor.executemany` after the implicit-`BEGIN` step:
every parameter set is substituted and executed in order by `execLoop`;
then, for a row-returning last statement, the description is resolved
through the type cache, the rowcount becomes `ntuples` and the last-row id
is cleared; otherwise the accumulated rowcount and the `oidstatus`
last-row id are stored. -/
def executemanyRest (nb : NativeBehavior) (op : String)
    (seqp : List (List PyVal)) (w1 : World) : Except (PgExc × World) World :=
  match execLoop nb op seqp ⟨0, "BEGIN", w1.cursor, w1.trace⟩ none with
      | .error (e, st) =>
        .error (e, { w1 with cursor := st.cur, trace := st.trace })
      | .ok (st, last) =>
        match last with
        | none => .ok { w1 with cursor := st.cur, trace := st.trace }
        | some r =>
          if r.resulttype = RESULT_DQL then
            let res := resolveDescrs nb.catalog w1.conn.typeCache st.trace r.listinfo
            .ok { conn := { w1.conn with typeCache := res.2.1 }
                  cursor := { st.cur with
                    rowcount := (r.ntuples : Int)
                    description := some res.1
                    colnames := some (res.1.map CursorDescription.name)
                    coltypes := some (res.1.map CursorDescription.type_code)
                    lastrowid := none }
                  trace := res.2.2 }
          else
            .ok { w1 with
              cursor := { st.cur with
                rowcount := (st.rowcount : Int)
                lastrowid := r.oidstatus }
              trace := st.trace }

/-- `Cursor.executemany(operation, seq_of_parameters)` from the source.
An empty parameter sequence returns immediately.  Otherwise the cursor
description, column metadata and rowcount are reset; if the connection has
no open transaction an implicit `BEGIN` is issued through a fresh source
and the `_tnx` flag is set (a failure of the `BEGIN` passes through when
it is a `DatabaseError` and is wrapped as an `OperationalError`
otherwise); the statement loop and result phase are `executemanyRest`.
Errors carry the world as mutated so far. -/
def executemany (nb : NativeBehavior) (op : String)
    (seqp : List (List PyVal)) (w : World) : Except (PgExc × World) World :=
  if seqp.isEmpty then .ok w
  else
    let w0 : World :=
      { w with
        cursor := { w.cursor with
          description := none
          colnames := none
          coltypes := none
          rowcount := -1 } }
    if w0.conn.tnx then executemanyRest nb op seqp w0
    else
      match nb.exec w0.trace "BEGIN" with
      | .ok _ =>
        executemanyRest nb op seqp
          { w0 with
            conn := { w0.conn with tnx := true }
            trace := w0.trace ++ ["BEGIN"] }
      | .fail e =>
        .error ((if e.isDatabaseError then e else _op_error "cannot start transaction"),
          { w0 with trace := w0.trace ++ ["BEGIN"] })

/-- `Cursor.execute(operation, parameters)` for a single (possibly empty)
parameter set: delegates to `executemany` with a one-element sequence. -/
def Cursor.execute (nb : NativeBehavior) (op : String)
    (ps : List PyVal) (w : World) : Except (PgExc × World) World :=
  executemany nb op [ps] w

/-- `Connection.commit()`: on a closed connection raise; with no open
transaction do nothing; otherwise clear `_tnx` first, then issue `COMMIT`
through the native connection, wrapping a foreign failure as an
`OperationalError`. -/
def Connection.commit (nb : NativeBehavior) (w : World) :
    Except (PgExc × World) World :=
  if w.conn.cnxOpen then
    if w.conn.tnx then
      let w1 : World := { w with conn := { w.conn with tnx := false } }
      let w2 : World := { w1 with trace := w1.trace ++ ["COMMIT"] }
      match nb.exec w1.trace "COMMIT" with
      | .ok _ => .ok w2
      | .fail e =>
        .error ((if e.isDatabaseError then e else _op_error "cannot commit"), w2)
    else .ok w
  else .error (_op_error "connection has been closed", w)

/-- `Connection.rollback()`: symmetric to `commit`, issuing `ROLLBACK`. -/
def Connection.rollback (nb : NativeBehavior) (w : World) :
    Except (PgExc × World) World :=
  if w.conn.cnxOpen then
    if w.conn.tnx then
      let w1 : World := { w with conn := { w.conn with tnx := false } }
      let w2 : World := { w1 with trace := w1.trace ++ ["ROLLBACK"] }
      match nb.exec w1.trace "ROLLBACK" with
      | .ok _ => .ok w2
      | .fail e =>
        .error ((if e.isDatabaseError then e else _op_error "cannot rollback"), w2)
    else .ok w
  else .error (_op_error "connection has been closed", w)

/-- `Connection.close()`: on a closed connection raise; otherwise, if a
transaction is open, attempt a rollback and swallow any `DatabaseError` it
raises; then release the native handle. -/
def Connection.close (nb : NativeBehavior) (w : World) :
    Except (PgExc × World) World :=
  if w.conn.cnxOpen then
    let afterRb : Except (PgExc × World) World :=
      if w.conn.tnx then
        match Connection.rollback nb w with
        | .ok w1 => .ok w1
        | .error (e, w1) => if e.isDatabaseError then .ok w1 else .error (e, w1)
      else .ok w
    match afterRb with
    | .error r => .error r
    | .ok w1 => .ok { w1 with conn := { w1.conn with cnxOpen := false } }
  else .error (_op_error "connection has been closed", w)

/-- `Connection.cursor()`: on a closed connection raise an operational
error; otherwise build a fresh cursor, reporting a failure to obtain a
native source (`srcOk = false`) as an operational error. -/
def Connection.cursor (srcOk : Bool) (c : ConnState) :
    Except PgExc CursorState :=
  if c.cnxOpen then
    if srcOk then .ok freshCursor else .error (_op_error "invalid connection")
  else .error (_op_error "connection has been closed")

/-- The loop state reached by `execLoop` whether it returned or raised. -/
def loopOut : Except (PgExc × LoopState) (LoopState × Option ExecOk) → LoopState
  | .ok r => r.1
  | .error r => r.2

/-- Specification-side mirror of the statement loop: the native
observations of the successive batch statements, `none` when a quoting or
execution step fails. -/
def batchOks (nb : NativeBehavior) (trace : List String) (op : String) :
    List (List PyVal) → Option (List ExecOk)
  | [] => some []
  | ps :: rest =>
    match quoteStep op ps with
    | .error _ => none
    | .ok sql =>
      match nb.exec trace sql with
      | .fail _ => none
      | .ok r => (batchOks nb (trace ++ [sql]) op rest).map (fun oks => r :: oks)

theorem catalogSql_length (oid : Nat) :
    (catalogSql oid).length = 46 + (toString oid).length := by
  have h : (String.length r"SELECT typname, typlen FROM pg_type WHERE oid=") = 46 := rfl
  simp [catalogSql, String.length_append, h]

theorem catalogSql_ne_BEGIN (oid : Nat) : catalogSql oid ≠ r"BEGIN" := by
  intro h
  have hl := congrArg String.length h
  rw [catalogSql_length] at hl
  have h5 : (String.length r"BEGIN") = 5 := rfl
  rw [h5] at hl
  omega

theorem catalogSql_ne_ROLLBACK (oid : Nat) : catalogSql oid ≠ r"ROLLBACK" := by
  intro h
  have hl := congrArg String.length h
  rw [catalogSql_length] at hl
  have h8 : (String.length r"ROLLBACK") = 8 := rfl
  rw [h8] at hl
  omega

theorem execLoop_trace (nb : NativeBehavior) (op : String) :
    ∀ (l : List (List PyVal)) (st : LoopState) (last : Option ExecOk),
    ∃ added, (loopOut (execLoop nb op l st last)).trace = st.trace ++ added ∧
      ∀ s ∈ added, ∃ ps, ps ∈ l ∧ substSql op ps = some s := by
  intro l
  induction l with
  | nil =>
    intro st last
    exact ⟨[], by simp [execLoop, loopOut], by simp⟩
  | cons ps rest ih =>
    intro st last
    cases hq : quoteStep op ps with
    | error e =>
      refine ⟨[], ?_, by simp⟩
      simp [execLoop, hq, loopOut]
    | ok sql =>
      cases hx : nb.exec st.trace sql with
      | fail e =>
        refine ⟨[sql], ?_, ?_⟩
        · simp [execLoop, hq, hx, loopOut]
        · intro s hs
          simp at hs
          subst hs
          exact ⟨ps, List.mem_cons_self ps rest, by simp [substSql, hq, Except.toOption]⟩
      | ok r =>
        have hst1 :
            ∀ st1 : LoopState, st1.trace = st.trace ++ [sql] →
            ∃ added,
              (loopOut (execLoop nb op rest st1 (some r))).trace = st.trace ++ added ∧
              ∀ s ∈ added, ∃ ps₂, ps₂ ∈ ps :: rest ∧ substSql op ps₂ = some s := by
          intro st1 h1
          obtain ⟨added, htr, hmem⟩ := ih st1 (some r)
          refine ⟨sql :: added, ?_, ?_⟩
          · rw [htr, h1, List.append_assoc]
            rfl
          · intro s hs
            rcases List.mem_cons.mp hs with h | h
            · subst h
              exact ⟨ps, List.mem_cons_self ps rest, by simp [substSql, hq, Except.toOption]⟩
            · obtain ⟨ps₂, hin, hsub⟩ := hmem s h
              exact ⟨ps₂, List.mem_cons_of_mem ps hin, hsub⟩
        simp only [execLoop, hq, hx]
        split
        · exact hst1 _ rfl
        · exact hst1 _ rfl

theorem resolveDescrs_trace (catalog : Nat → String × Int) :
    ∀ (infos : List ColInfo) (cache : List (Nat × TypeDescr)) (trace : List String),
    ∃ cat, (resolveDescrs catalog cache trace infos).2.2 = trace ++ cat ∧
      ∀ s ∈ cat, ∃ oid, s = catalogSql oid := by
  intro infos
  induction infos with
  | nil =>
    intro cache trace
    exact ⟨[], by simp [resolveDescrs], by simp⟩
  | cons ci rest ih =>
    intro cache trace
    rw [resolveDescrs]
    cases hl : cache.lookup ci.oid with
    | some d =>
      obtain ⟨cat, htr, hmem⟩ := ih cache trace
      refine ⟨cat, ?_, hmem⟩
      simpa [TypeCache.getdescr, hl] using htr
    | none =>
      obtain ⟨cat, htr, hmem⟩ := ih ((ci.oid, ⟨(catalog ci.oid).1, (catalog ci.oid).2⟩) :: cache)
        (trace ++ [catalogSql ci.oid])
      refine ⟨catalogSql ci.oid :: cat, ?_, ?_⟩
      · simp only [TypeCache.getdescr, hl]
        rw [htr, List.append_assoc]
        rfl
      · intro s hs
        rcases List.mem_cons.mp hs with h | h
        · exact ⟨ci.oid, h⟩
        · exact hmem s h

theorem executemanyRest_shape (nb : NativeBehavior) (op : String)
    (seqp : List (List PyVal)) (w1 : World) :
    ∃ added, (outWorld (executemanyRest nb op seqp w1)).trace = w1.trace ++ added ∧
      (∀ s ∈ added, (∃ ps, ps ∈ seqp ∧ substSql op ps = some s) ∨ ∃ oid, s = catalogSql oid) ∧
      (outWorld (executemanyRest nb op seqp w1)).conn.tnx = w1.conn.tnx := by
  obtain ⟨added, htr, hmem⟩ :=
    execLoop_trace nb op seqp ⟨0, r"BEGIN", w1.cursor, w1.trace⟩ none
  rw [executemanyRest]
  cases hL : execLoop nb op seqp ⟨0, r"BEGIN", w1.cursor, w1.trace⟩ none with
  | error r =>
    rw [hL] at htr
    exact ⟨added, by simpa [outWorld, loopOut] using htr,
      fun s hs => Or.inl (hmem s hs), by simp [outWorld]⟩
  | ok r =>
    rw [hL] at htr
    obtain ⟨st, last⟩ := r
    cases last with
    | none =>
      exact ⟨added, by simpa [outWorld, loopOut] using htr,
        fun s hs => Or.inl (hmem s hs), by simp [outWorld]⟩
    | some rr =>
      by_cases hdql : rr.resulttype = RESULT_DQL
      · obtain ⟨cat, htr2, hmem2⟩ :=
          resolveDescrs_trace nb.catalog rr.listinfo w1.conn.typeCache st.trace
        simp only [loopOut] at htr
        rw [htr] at htr2
        refine ⟨added ++ cat, ?_, ?_, ?_⟩
        · simp [outWorld, hdql, htr, htr2, List.append_assoc]
        · intro s hs
          rcases List.mem_append.mp hs with h | h
          · exact Or.inl (hmem s h)
          · exact Or.inr (hmem2 s h)
        · simp [outWorld, hdql]
      · simp only [if_neg hdql]
        refine ⟨added, ?_, fun s hs => Or.inl (hmem s hs), by simp [outWorld]⟩
        simp only [loopOut] at htr
        simpa [outWorld] using htr

theorem List.getLast?_cons_or {α : Type} (a : α) (l : List α) :
    (a :: l).getLast? = if l.isEmpty then some a else l.getLast? := by
  cases l with
  | nil => rfl
  | cons b t => simp [List.getLast?_cons_cons]

theorem execLoop_ok_batch (nb : NativeBehavior) (op : String) :
    ∀ (l : List (List PyVal)) (st : LoopState) (last : Option ExecOk)
      (st2 : LoopState) (last2 : Option ExecOk),
    execLoop nb op l st last = .ok (st2, last2) →
    ∃ oks, batchOks nb st.trace op l = some oks ∧
      st2.rowcount = st.rowcount + (oks.map ExecOk.rows).sum ∧
      last2 = (if oks.isEmpty then last else oks.getLast?) := by
  intro l
  induction l with
  | nil =>
    intro st last st2 last2 h
    rw [execLoop] at h
    injection h with h
    injection h with h1 h2
    subst h1
    subst h2
    exact ⟨[], rfl, by simp, by simp⟩
  | cons ps rest ih =>
    intro st last st2 last2 h
    rw [execLoop] at h
    cases hq : quoteStep op ps with
    | error e => rw [hq] at h; exact absurd h (by simp)
    | ok sql =>
      rw [hq] at h
      simp only at h
      cases hx : nb.exec st.trace sql with
      | fail e => rw [hx] at h; exact absurd h (by simp)
      | ok r =>
        rw [hx] at h
        simp only at h
        by_cases hr : r.rows = 0
        · rw [if_neg (fun hc => hc hr)] at h
          obtain ⟨oks, hoks, hrc, hlast⟩ := ih _ _ _ _ h
          refine ⟨r :: oks, ?_, ?_, ?_⟩
          · simp only [batchOks, hq, hx]
            simp only at hoks
            rw [hoks]
            rfl
          · simp only at hrc
            simp [hrc, hr]
          · rw [hlast, List.getLast?_cons_or]
            simp
        · rw [if_pos hr] at h
          obtain ⟨oks, hoks, hrc, hlast⟩ := ih _ _ _ _ h
          refine ⟨r :: oks, ?_, ?_, ?_⟩
          · simp only [batchOks, hq, hx]
            simp only at hoks
            rw [hoks]
            rfl
          · simp only at hrc
            simp [hrc]
            omega
          · rw [hlast, List.getLast?_cons_or]
            simp

theorem executemanyRest_ok_notDQL (nb : NativeBehavior) (op : String)
    (seqp : List (List PyVal)) (w1 w2 : World) (oks : List ExecOk) (rl : ExecOk)
    (hrun : executemanyRest nb op seqp w1 = .ok w2)
    (hoks : batchOks nb w1.trace op seqp = some oks)
    (hlast : oks.getLast? = some rl)
    (hnd : rl.resulttype ≠ RESULT_DQL) :
    w2.cursor.rowcount = ((oks.map ExecOk.rows).sum : Int) ∧
      w2.cursor.lastrowid = rl.oidstatus := by
  rw [executemanyRest] at hrun
  cases hL : execLoop nb op seqp ⟨0, r"BEGIN", w1.cursor, w1.trace⟩ none with
  | error r => rw [hL] at hrun; exact absurd hrun (by simp)
  | ok r =>
    rw [hL] at hrun
    obtain ⟨st, last⟩ := r
    obtain ⟨oks0, hoks0, hrc, hl2⟩ := execLoop_ok_batch nb op seqp _ none st last hL
    simp only at hoks0
    rw [hoks] at hoks0
    injection hoks0 with hoks0
    subst hoks0
    have hne : oks.isEmpty = false := by
      cases oks with
      | nil => simp at hlast
      | cons a t => rfl
    rw [hne] at hl2
    simp only [Bool.false_eq_true, if_false] at hl2
    rw [hl2, hlast] at hrun
    simp only at hrun
    rw [if_neg hnd] at hrun
    injection hrun with hrun
    subst hrun
    simp only at hrc
    simp [hrc]

theorem executemany_shape_tnxFalse (nb : NativeBehavior) (op : String)
    (seqp : List (List PyVal)) (w : World)
    (hne : seqp.isEmpty = false) (htx : w.conn.tnx = false) :
    ∃ rest, (outWorld (executemany nb op seqp w)).trace = w.trace ++ r"BEGIN" :: rest ∧
      (∀ s ∈ rest, (∃ ps, ps ∈ seqp ∧ substSql op ps = some s) ∨ ∃ oid, s = catalogSql oid) ∧
      ∀ r, nb.exec w.trace r"BEGIN" = .ok r →
        (outWorld (executemany nb op seqp w)).conn.tnx = true := by
  have key : ∀ wB : World, wB.conn.tnx = true → wB.trace = w.trace ++ [r"BEGIN"] →
      ∃ rest, (outWorld (executemanyRest nb op seqp wB)).trace = w.trace ++ r"BEGIN" :: rest ∧
        (∀ s ∈ rest, (∃ ps, ps ∈ seqp ∧ substSql op ps = some s) ∨ ∃ oid, s = catalogSql oid) ∧
        (outWorld (executemanyRest nb op seqp wB)).conn.tnx = true := by
    intro wB h1 h2
    obtain ⟨added, htr, hmem, htnx⟩ := executemanyRest_shape nb op seqp wB
    refine ⟨added, ?_, hmem, by rw [htnx, h1]⟩
    rw [htr, h2, List.append_assoc]
    rfl
  rw [executemany]
  simp only [hne, Bool.false_eq_true, if_false, htx]
  split
  · rename_i r0 hb
    obtain ⟨rest, h1, h2, h3⟩ := key
      { conn := { w.conn with tnx := true }
        cursor := { w.cursor with
          description := none
          colnames := none
          coltypes := none
          rowcount := -1 }
        trace := w.trace ++ [r"BEGIN"] } rfl rfl
    exact ⟨rest, h1, h2, fun r hr => h3⟩
  · rename_i e hb
    refine ⟨[], by simp [outWorld], by simp, fun r hr => ?_⟩
    rw [hb] at hr
    exact absurd hr (by simp)

theorem executemany_shape_tnxTrue (nb : NativeBehavior) (op : String)
    (seqp : List (List PyVal)) (w : World)
    (hne : seqp.isEmpty = false) (htx : w.conn.tnx = true) :
    ∃ rest, (outWorld (executemany nb op seqp w)).trace = w.trace ++ rest ∧
      (∀ s ∈ rest, (∃ ps, ps ∈ seqp ∧ substSql op ps = some s) ∨ ∃ oid, s = catalogSql oid) ∧
      (outWorld (executemany nb op seqp w)).conn.tnx = true := by
  have key : ∀ wB : World, wB.conn.tnx = true → wB.trace = w.trace →
      ∃ rest, (outWorld (executemanyRest nb op seqp wB)).trace = w.trace ++ rest ∧
        (∀ s ∈ rest, (∃ ps, ps ∈ seqp ∧ substSql op ps = some s) ∨ ∃ oid, s = catalogSql oid) ∧
        (outWorld (executemanyRest nb op seqp wB)).conn.tnx = true := by
    intro wB h1 h2
    obtain ⟨added, htr, hmem, htnx⟩ := executemanyRest_shape nb op seqp wB
    exact ⟨added, by rw [htr, h2], hmem, by rw [htnx, h1]⟩
  rw [executemany]
  simp only [hne, Bool.false_eq_true, if_false, htx, if_true]
  exact key
    { conn := w.conn
      cursor := { w.cursor with
        description := none
        colnames := none
        coltypes := none
        rowcount := -1 }
      trace := w.trace } htx rfl

/-- C1: the first statement executed while the transaction flag is unset
causes exactly one implicit BEGIN, issued through the native connection
before the batch statements, and (when the BEGIN succeeds) sets the flag;
any further executemany call made while the flag is set issues no
additional BEGIN.  (The hypothesis `hnb` says the batch statements
themselves are not the text `BEGIN`.) -/
theorem pgdb_C1 (nb : NativeBehavior) (op : String)
    (seqp : List (List PyVal)) (w : World)
    (hne : seqp ≠ [])
    (hnb : ∀ ps, ps ∈ seqp → ∀ s, substSql op ps = some s → s ≠ r"BEGIN") :
    (w.conn.tnx = false →
      (∃ rest, (outWorld (executemany nb op seqp w)).trace = w.trace ++ r"BEGIN" :: rest ∧
        r"BEGIN" ∉ rest) ∧
      ∀ r, nb.exec w.trace r"BEGIN" = .ok r →
        (outWorld (executemany nb op seqp w)).conn.tnx = true) ∧
    (w.conn.tnx = true →
      (∃ rest, (outWorld (executemany nb op seqp w)).trace = w.trace ++ rest ∧
        r"BEGIN" ∉ rest) ∧
      (outWorld (executemany nb op seqp w)).conn.tnx = true) := by
  have hempty : seqp.isEmpty = false := by
    cases seqp with
    | nil => exact absurd rfl hne
    | cons a t => rfl
  have hnotin : ∀ added : List String,
      (∀ s ∈ added, (∃ ps, ps ∈ seqp ∧ substSql op ps = some s) ∨ ∃ oid, s = catalogSql oid) →
      r"BEGIN" ∉ added := by
    intro added hmem hin
    rcases hmem _ hin with ⟨ps, hps, hsub⟩ | ⟨oid, hoid⟩
    · exact hnb ps hps _ hsub rfl
    · exact catalogSql_ne_BEGIN oid hoid.symm
  constructor
  · intro htx
    obtain ⟨rest, htr, hmem, htnx⟩ := executemany_shape_tnxFalse nb op seqp w hempty htx
    exact ⟨⟨rest, htr, hnotin rest hmem⟩, htnx⟩
  · intro htx
    obtain ⟨rest, htr, hmem, htnx⟩ := executemany_shape_tnxTrue nb op seqp w hempty htx
    exact ⟨⟨rest, htr, hnotin rest hmem⟩, htnx⟩

/-- C5: when `executemany` raises after the implicit transaction is open
(either the flag was already set, or the `BEGIN` itself succeeded), the
error propagates with the transaction flag still set and no `ROLLBACK`
issued through the native connection.  (The hypothesis `hnr` says the
batch statements themselves are not the text `ROLLBACK`.) -/
theorem pgdb_C5 (nb : NativeBehavior) (op : String)
    (seqp : List (List PyVal)) (w : World) (e : PgExc) (w' : World)
    (herr : executemany nb op seqp w = .error (e, w'))
    (htx : w.conn.tnx = true ∨ ∃ r, nb.exec w.trace r"BEGIN" = .ok r)
    (hnr : ∀ ps, ps ∈ seqp → ∀ s, substSql op ps = some s → s ≠ r"ROLLBACK") :
    w'.conn.tnx = true ∧
      ∃ rest, w'.trace = w.trace ++ rest ∧ r"ROLLBACK" ∉ rest := by
  have hout : outWorld (executemany nb op seqp w) = w' := by rw [herr]; rfl
  have hempty : seqp.isEmpty = false := by
    cases seqp with
    | nil =>
      rw [executemany] at herr
      exact absurd herr (by simp)
    | cons a t => rfl
  have hnotin : ∀ added : List String,
      (∀ s ∈ added, (∃ ps, ps ∈ seqp ∧ substSql op ps = some s) ∨ ∃ oid, s = catalogSql oid) →
      r"ROLLBACK" ∉ added := by
    intro added hmem hin
    rcases hmem _ hin with ⟨ps, hps, hsub⟩ | ⟨oid, hoid⟩
    · exact hnr ps hps _ hsub rfl
    · exact catalogSql_ne_ROLLBACK oid hoid.symm
  cases hc : w.conn.tnx with
  | true =>
    obtain ⟨rest, htr, hmem, htnx⟩ := executemany_shape_tnxTrue nb op seqp w hempty hc
    rw [hout] at htr htnx
    exact ⟨htnx, rest, htr, hnotin rest hmem⟩
  | false =>
    rcases htx with hx | ⟨r, hr⟩
    · rw [hc] at hx
      exact absurd hx (by simp)
    · obtain ⟨rest, htr, hmem, htnx⟩ := executemany_shape_tnxFalse nb op seqp w hempty hc
      rw [hout] at htr
      refine ⟨?_, r"BEGIN" :: rest, htr, ?_⟩
      · have := htnx r hr
        rw [hout] at this
        exact this
      · intro hin
        rcases List.mem_cons.mp hin with h | h
        · exact absurd h.symm (by decide)
        · exact hnotin rest hmem h

/-- C8: `executemany` with an empty parameter-set sequence is a no-op:
the world (native trace, transaction flag, cursor attributes) is returned
unchanged; and on a fresh cursor the rowcount sits at the "unknown"
sentinel −1. -/
theorem pgdb_C8 :
    (∀ (nb : NativeBehavior) (op : String) (w : World),
      executemany nb op [] w = .ok w) ∧
    freshCursor.rowcount = -1 := by
  constructor
  · intro nb op w
    rw [executemany]
    rfl
  · rfl

/-- C4: for a non-empty batch whose final statement is not row-returning,
the cursor rowcount after `executemany` equals the sum of the affected-row
counts reported by the native connection for the batch statements, and the
last-row identifier is the `oidstatus` observation after the final
statement. -/
theorem pgdb_C4 (nb : NativeBehavior) (op : String)
    (seqp : List (List PyVal)) (w w' : World) (oks : List ExecOk) (rl : ExecOk)
    (hne : seqp ≠ [])
    (hrun : executemany nb op seqp w = .ok w')
    (hoks : batchOks nb (if w.conn.tnx then w.trace else w.trace ++ [r"BEGIN"]) op seqp
      = some oks)
    (hlast : oks.getLast? = some rl)
    (hnd : rl.resulttype ≠ RESULT_DQL) :
    w'.cursor.rowcount = ((oks.map ExecOk.rows).sum : Int) ∧
      w'.cursor.lastrowid = rl.oidstatus := by
  have hempty : seqp.isEmpty = false := by
    cases seqp with
    | nil => exact absurd rfl hne
    | cons a t => rfl
  rw [executemany] at hrun
  simp only [hempty, Bool.false_eq_true, if_false] at hrun
  cases hc : w.conn.tnx with
  | true =>
    rw [hc] at hrun hoks
    simp only [if_true] at hrun hoks
    exact executemanyRest_ok_notDQL nb op seqp _ w' oks rl hrun hoks hlast hnd
  | false =>
    rw [hc] at hrun hoks
    simp only [Bool.false_eq_true, if_false] at hrun hoks
    split at hrun
    · rename_i r0 hb
      exact executemanyRest_ok_notDQL nb op seqp _ w' oks rl hrun hoks hlast hnd
    · rename_i e hb
      exact absurd hrun (by simp)

/-- C6: every operation on a closed Connection — `cursor()`, `commit()`,
`rollback()`, and a second `close()` — raises an `OperationalError`. -/
theorem pgdb_C6 (nb : NativeBehavior) (srcOk : Bool) (w : World)
    (hclosed : w.conn.cnxOpen = false) :
    Connection.cursor srcOk w.conn = .error (_op_error (r"connection has been closed")) ∧
    Connection.commit nb w = .error (_op_error (r"connection has been closed"), w) ∧
    Connection.rollback nb w = .error (_op_error (r"connection has been closed"), w) ∧
    Connection.close nb w = .error (_op_error (r"connection has been closed"), w) := by
  refine ⟨?_, ?_, ?_, ?_⟩ <;>
    simp [Connection.cursor, Connection.commit, Connection.rollback,
      Connection.close, hclosed]

/-- C7: `close()` on an open Connection with the transaction flag set
attempts one implicit `ROLLBACK` through the native connection, suppresses
any error that attempt raises, clears the flag and releases the handle;
the close itself succeeds for every native behavior. -/
theorem pgdb_C7 (nb : NativeBehavior) (w : World)
    (hopen : w.conn.cnxOpen = true) (htx : w.conn.tnx = true) :
    ∃ w', Connection.close nb w = .ok w' ∧ w'.conn.cnxOpen = false ∧
      w'.conn.tnx = false ∧ w'.trace = w.trace ++ [r"ROLLBACK"] := by
  rw [Connection.close]
  simp only [hopen, if_true, htx]
  rw [Connection.rollback]
  simp only [hopen, if_true, htx]
  cases hb : nb.exec w.trace r"ROLLBACK" with
  | ok r => exact ⟨_, rfl, by simp [hopen], rfl, rfl⟩
  | fail e =>
    have hdb : (if e.isDatabaseError then e else _op_error (r"cannot rollback")).isDatabaseError
        = true := by
      cases he : e.isDatabaseError with
      | true => simp [he]
      | false => simp [he, PgExc.isDatabaseError, _op_error]
    simp only [hdb, if_true]
    exact ⟨_, rfl, by simp [hopen], rfl, rfl⟩

/-- C10: `commit()`/`rollback()` on an open in-transaction Connection
clear the flag before issuing the native command, so even when the native
command fails the Connection ends in the no-transaction state; an
immediately following `commit()` or `rollback()` is then a no-op returning
the world unchanged, and the next statement batch opens with a fresh
implicit `BEGIN`. -/
theorem pgdb_C10 (nb : NativeBehavior) (w : World)
    (hopen : w.conn.cnxOpen = true) (htx : w.conn.tnx = true) :
    ((outWorld (Connection.commit nb w)).conn.tnx = false ∧
      (outWorld (Connection.commit nb w)).trace = w.trace ++ [r"COMMIT"]) ∧
    ((outWorld (Connection.rollback nb w)).conn.tnx = false ∧
      (outWorld (Connection.rollback nb w)).trace = w.trace ++ [r"ROLLBACK"]) ∧
    (∀ e w', Connection.commit nb w = .error (e, w') →
      Connection.commit nb w' = .ok w' ∧ Connection.rollback nb w' = .ok w' ∧
      ∀ (nb2 : NativeBehavior) (op : String) (seqp : List (List PyVal)),
        seqp ≠ [] →
        ∃ rest, (outWorld (executemany nb2 op seqp w')).trace
          = w'.trace ++ r"BEGIN" :: rest) ∧
    (∀ e w', Connection.rollback nb w = .error (e, w') →
      Connection.rollback nb w' = .ok w' ∧ Connection.commit nb w' = .ok w' ∧
      ∀ (nb2 : NativeBehavior) (op : String) (seqp : List (List PyVal)),
        seqp ≠ [] →
        ∃ rest, (outWorld (executemany nb2 op seqp w')).trace
          = w'.trace ++ r"BEGIN" :: rest) := by
  have hfresh : ∀ w' : World, w'.conn.cnxOpen = true → w'.conn.tnx = false →
      Connection.commit nb w' = .ok w' ∧ Connection.rollback nb w' = .ok w' ∧
      ∀ (nb2 : NativeBehavior) (op : String) (seqp : List (List PyVal)),
        seqp ≠ [] →
        ∃ rest, (outWorld (executemany nb2 op seqp w')).trace
          = w'.trace ++ r"BEGIN" :: rest := by
    intro w' ho ht
    refine ⟨?_, ?_, ?_⟩
    · rw [Connection.commit]
      simp [ho, ht]
    · rw [Connection.rollback]
      simp [ho, ht]
    · intro nb2 op seqp hne
      have hempty : seqp.isEmpty = false := by
        cases seqp with
        | nil => exact absurd rfl hne
        | cons a t => rfl
      obtain ⟨rest, htr, _, _⟩ := executemany_shape_tnxFalse nb2 op seqp w' hempty ht
      exact ⟨rest, htr⟩
  refine ⟨?_, ?_, ?_, ?_⟩
  · rw [Connection.commit]
    simp only [hopen, if_true, htx]
    cases hb : nb.exec w.trace r"COMMIT" with
    | ok r => exact ⟨rfl, rfl⟩
    | fail e => exact ⟨rfl, rfl⟩
  · rw [Connection.rollback]
    simp only [hopen, if_true, htx]
    cases hb : nb.exec w.trace r"ROLLBACK" with
    | ok r => exact ⟨rfl, rfl⟩
    | fail e => exact ⟨rfl, rfl⟩
  · intro e w' herr
    rw [Connection.commit] at herr
    simp only [hopen, if_true, htx] at herr
    cases hb : nb.exec w.trace r"COMMIT" with
    | ok r =>
      rw [hb] at herr
      exact absurd herr (by simp)
    | fail e0 =>
      rw [hb] at herr
      simp only [Except.error.injEq, Prod.mk.injEq] at herr
      obtain ⟨he, hw⟩ := herr
      have hopen2 : w'.conn.cnxOpen = true := by rw [← hw]
      have htx2 : w'.conn.tnx = false := by rw [← hw]
      exact hfresh w' hopen2 htx2
  · intro e w' herr
    rw [Connection.rollback] at herr
    simp only [hopen, if_true, htx] at herr
    cases hb : nb.exec w.trace r"ROLLBACK" with
    | ok r =>
      rw [hb] at herr
      exact absurd herr (by simp)
    | fail e0 =>
      rw [hb] at herr
      simp only [Except.error.injEq, Prod.mk.injEq] at herr
      obtain ⟨he, hw⟩ := herr
      have hopen2 : w'.conn.cnxOpen = true := by rw [← hw]
      have htx2 : w'.conn.tnx = false := by rw [← hw]
      have h := hfresh w' hopen2 htx2
      exact ⟨h.2.1, h.1, h.2.2⟩

/-- C9: `getdescr` issues the catalog lookup exactly once per oid: a miss
appends exactly one catalog statement to the trace and caches the
descriptor, a hit leaves both cache and trace unchanged; existing entries
are never evicted, and an immediate second resolution of the same oid is a
pure cache hit returning the same descriptor with no further statement. -/
theorem pgdb_C9 (catalog : Nat → String × Int) (cache : List (Nat × TypeDescr))
    (trace : List String) (oid : Nat) :
    ((TypeCache.getdescr catalog cache trace oid).2.2 =
      if (cache.lookup oid).isSome then trace else trace ++ [catalogSql oid]) ∧
    ((TypeCache.getdescr catalog cache trace oid).2.1.lookup oid =
      some (TypeCache.getdescr catalog cache trace oid).1) ∧
    (∀ k d, cache.lookup k = some d →
      (TypeCache.getdescr catalog cache trace oid).2.1.lookup k = some d) ∧
    (∀ t2, TypeCache.getdescr catalog (TypeCache.getdescr catalog cache trace oid).2.1 t2 oid
      = ((TypeCache.getdescr catalog cache trace oid).1,
          (TypeCache.getdescr catalog cache trace oid).2.1, t2)) := by
  cases hl : cache.lookup oid with
  | some d =>
    refine ⟨?_, ?_, ?_, ?_⟩
    · simp [TypeCache.getdescr, hl]
    · simp [TypeCache.getdescr, hl]
    · intro k d2 hk
      simp [TypeCache.getdescr, hl, hk]
    · intro t2
      simp [TypeCache.getdescr, hl]
  | none =>
    refine ⟨?_, ?_, ?_, ?_⟩
    · simp [TypeCache.getdescr, hl]
    · simp [TypeCache.getdescr, hl, List.lookup]
    · intro k d2 hk
      simp only [TypeCache.getdescr, hl]
      by_cases hko : k = oid
      · subst hko
        rw [hl] at hk
        exact absurd hk (by simp)
      · have hbeq : (k == oid) = false := by simp [hko]
        simp [List.lookup, hk, hbeq]
    · intro t2
      simp [TypeCache.getdescr, hl, List.lookup]

theorem quoteList_spec (vs : List PyVal)
    (ih : ∀ v, v ∈ vs →
      (PyVal.supported v = true → ∃ s, _quote v = .ok s) ∧
      (PyVal.supported v = false → ∃ m, _quote v = .error (.interfaceError m))) :
    (PyVal.supported.supportedList vs = true → ∃ ss, _quote.quoteList vs = .ok ss) ∧
    (PyVal.supported.supportedList vs = false →
      ∃ m, _quote.quoteList vs = .error (.interfaceError m)) := by
  induction vs with
  | nil =>
    exact ⟨fun _ => ⟨[], rfl⟩, fun h => by simp [PyVal.supported.supportedList] at h⟩
  | cons v vs ihl =>
    have hv := ih v (List.mem_cons_self v vs)
    have hrest := ihl (fun u hu => ih u (List.mem_cons_of_mem v hu))
    constructor
    · intro h
      rw [PyVal.supported.supportedList, Bool.and_eq_true] at h
      obtain ⟨s, hs⟩ := hv.1 h.1
      obtain ⟨ss, hss⟩ := hrest.1 h.2
      exact ⟨s :: ss, by rw [_quote.quoteList, hs, hss]⟩
    · intro h
      rw [PyVal.supported.supportedList, Bool.and_eq_false_iff] at h
      cases hs : PyVal.supported v with
      | false =>
        obtain ⟨m, hm⟩ := hv.2 hs
        exact ⟨m, by rw [_quote.quoteList, hm]⟩
      | true =>
        have hvs : PyVal.supported.supportedList vs = false := by
          rcases h with h | h
          · rw [hs] at h
            exact absurd h (by simp)
          · exact h
        obtain ⟨s, hsv⟩ := hv.1 hs
        obtain ⟨m, hm⟩ := hrest.2 hvs
        exact ⟨m, by rw [_quote.quoteList, hsv, hm]⟩

theorem quote_supported_dichotomy : ∀ v : PyVal,
    (PyVal.supported v = true → ∃ s, _quote v = .ok s) ∧
    (PyVal.supported v = false → ∃ m, _quote v = .error (.interfaceError m)) := by
  have main : ∀ n : Nat, ∀ v : PyVal, sizeOf v ≤ n →
      (PyVal.supported v = true → ∃ s, _quote v = .ok s) ∧
      (PyVal.supported v = false → ∃ m, _quote v = .error (.interfaceError m)) := by
    intro n
    induction n using Nat.strong_induction_on with
    | _ n ih =>
      intro v hsize
      cases v with
      | datetimeV s => exact ⟨fun _ => ⟨_, rfl⟩, fun h => by simp [PyVal.supported] at h⟩
      | strV s => exact ⟨fun _ => ⟨_, rfl⟩, fun h => by simp [PyVal.supported] at h⟩
      | binaryV b => exact ⟨fun _ => ⟨_, rfl⟩, fun h => by simp [PyVal.supported] at h⟩
      | intV i => exact ⟨fun _ => ⟨_, rfl⟩, fun h => by simp [PyVal.supported] at h⟩
      | floatV f =>
        refine ⟨fun _ => ?_, fun h => by simp [PyVal.supported] at h⟩
        cases f with
        | nan => exact ⟨_, rfl⟩
        | inf => exact ⟨_, rfl⟩
        | ninf => exact ⟨_, rfl⟩
        | finite q => exact ⟨_, rfl⟩
      | noneV => exact ⟨fun _ => ⟨_, rfl⟩, fun h => by simp [PyVal.supported] at h⟩
      | decimalV s => exact ⟨fun _ => ⟨_, rfl⟩, fun h => by simp [PyVal.supported] at h⟩
      | pgReprV s => exact ⟨fun _ => ⟨_, rfl⟩, fun h => by simp [PyVal.supported] at h⟩
      | otherV t =>
        exact ⟨fun h => by simp [PyVal.supported] at h, fun _ => ⟨_, rfl⟩⟩
      | listV vs =>
        have hsz : sizeOf vs < n := by
          have : sizeOf (PyVal.listV vs) = 1 + sizeOf vs := by simp
          omega
        have ihv : ∀ u, u ∈ vs →
            (PyVal.supported u = true → ∃ s, _quote u = .ok s) ∧
            (PyVal.supported u = false → ∃ m, _quote u = .error (.interfaceError m)) := by
          intro u hu
          have h1 : sizeOf u < sizeOf vs := List.sizeOf_lt_of_mem hu
          exact ih (sizeOf u) (by omega) u (le_refl _)
        obtain ⟨hok, herr⟩ := quoteList_spec vs ihv
        constructor
        · intro h
          obtain ⟨ss, hss⟩ := hok (by rw [← h]; rfl)
          exact ⟨_, by rw [_quote, hss]⟩
        · intro h
          obtain ⟨m, hm⟩ := herr (by rw [← h]; rfl)
          exact ⟨m, by rw [_quote, hm]⟩
  intro v
  exact main (sizeOf v) v (le_refl _)

/-- C2: `_quote` is a closed dispatch over the fixed set of supported
value kinds — it renders every supported value (recursively through
sequences) and raises an `InterfaceError` for every value whose kind is
outside the set. -/
theorem pgdb_C2 (v : PyVal) :
    (PyVal.supported v = true → ∃ s, _quote v = .ok s) ∧
    (PyVal.supported v = false → ∃ m, _quote v = .error (.interfaceError m)) :=
  quote_supported_dichotomy v

/-- C3: quoting IEEE positive infinity yields the SQL literal
`'Infinity'` (negative infinity `'-Infinity'`, NaN `'NaN'`), and
`_cast_float` maps the column texts `Infinity`, `-Infinity` and `NaN`
back to the corresponding IEEE values, so quote followed by cast
round-trips the sentinels; any column text the float parser rejects makes
`_cast_float` raise a `ValueError`. -/
theorem pgdb_C3 :
    _quote (.floatV .inf) = .ok (squoted (r"Infinity")) ∧
    _quote (.floatV .ninf) = .ok (squoted (r"-Infinity")) ∧
    _quote (.floatV .nan) = .ok (squoted (r"NaN")) ∧
    _cast_float (r"Infinity") = .ok .inf ∧
    _cast_float (r"-Infinity") = .ok .ninf ∧
    _cast_float (r"NaN") = .ok .nan ∧
    ∀ s, pyFloatOfString s = none → ∃ m, _cast_float s = .error m := by
  refine ⟨rfl, rfl, rfl, rfl, rfl, rfl, ?_⟩
  intro s h
  rw [_cast_float, h]
  by_cases h1 : s = r"NaN"
  · subst h1
    have hv : pyFloatOfString (r"NaN") = some PyFloat.nan := rfl
    rw [hv] at h
    exact absurd h (by simp)
  · rw [if_neg h1]
    by_cases h2 : s = r"Infinity"
    · subst h2
      have hv : pyFloatOfString (r"Infinity") = some PyFloat.inf := rfl
      rw [hv] at h
      exact absurd h (by simp)
    · rw [if_neg h2]
      by_cases h3 : s = r"-Infinity"
      · subst h3
        have hv : pyFloatOfString (r"-Infinity") = some PyFloat.ninf := rfl
        rw [hv] at h
        exact absurd h (by simp)
      · rw [if_neg h3]
        exact ⟨_, rfl⟩

/-- A sample operation template for concrete runs. -/
def opW : String := r"INSERT INTO t VALUES(%s)"

/-- A native observation for a one-row DML statement. -/
def r1W : ExecOk := ⟨1, 2, 0, [], some 7⟩

/-- A native observation for a statement reporting no affected rows. -/
def rbW : ExecOk := ⟨0, 2, 0, [], none⟩

/-- A native connection on which every statement succeeds as DML. -/
def nbOkW : NativeBehavior := ⟨fun _ _ => .ok r1W, fun _ => (r"int4", 4)⟩

/-- A native connection on which `BEGIN` succeeds and every other
statement fails with a `DatabaseError`. -/
def nbFailW : NativeBehavior :=
  ⟨fun _ sql => if sql = r"BEGIN" then .ok rbW else .fail (.databaseError (r"boom")),
   fun _ => (r"int4", 4)⟩

/-- A native connection on which every statement fails. -/
def nbDownW : NativeBehavior :=
  ⟨fun _ _ => .fail (.databaseError (r"down")), fun _ => (r"int4", 4)⟩

/-- An open connection with no transaction, fresh cursor, empty trace. -/
def wOpenNoTxW : World := ⟨⟨true, false, []⟩, freshCursor, []⟩

/-- An open connection with an open transaction. -/
def wOpenTxW : World := ⟨⟨true, true, []⟩, freshCursor, []⟩

/-- A closed connection. -/
def wClosedW : World := ⟨⟨false, false, []⟩, freshCursor, []⟩

theorem pgdb_C1_witness :
    ∃ rest, (outWorld (executemany nbOkW opW [[PyVal.intV 1]] wOpenNoTxW)).trace
      = wOpenNoTxW.trace ++ r"BEGIN" :: rest ∧ r"BEGIN" ∉ rest := by
  have hnb : ∀ ps, ps ∈ [[PyVal.intV 1]] → ∀ s, substSql opW ps = some s →
      s ≠ r"BEGIN" := by
    intro ps hps s hsub
    simp at hps
    subst hps
    have hv : substSql opW [PyVal.intV 1] = some (r"INSERT INTO t VALUES(1)") := rfl
    rw [hv] at hsub
    injection hsub with hsub
    subst hsub
    decide
  have h := pgdb_C1 nbOkW opW [[PyVal.intV 1]] wOpenNoTxW (by simp) hnb
  exact (h.1 rfl).1

theorem pgdb_C2_witness :
    (∃ s, _quote (.intV 1) = .ok s) ∧
    (∃ m, _quote (.otherV (r"Point")) = .error (.interfaceError m)) :=
  ⟨(pgdb_C2 (.intV 1)).1 rfl, (pgdb_C2 (.otherV (r"Point"))).2 rfl⟩

theorem pgdb_C3_witness : ∃ m, _cast_float (r"xyz") = .error m :=
  pgdb_C3.2.2.2.2.2.2 (r"xyz") rfl

/-- The world after a successful three-row insert batch on `nbOkW`. -/
def wC4W : World := ⟨⟨true, true, []⟩, ⟨none, none, none, 3, 1, some 7⟩,
  [r"BEGIN", r"INSERT INTO t VALUES(1)", r"INSERT INTO t VALUES(2)",
   r"INSERT INTO t VALUES(3)"]⟩

theorem pgdb_C4_witness :
    wC4W.cursor.rowcount = (([r1W, r1W, r1W].map ExecOk.rows).sum : Int) ∧
    wC4W.cursor.lastrowid = r1W.oidstatus :=
  pgdb_C4 nbOkW opW [[PyVal.intV 1], [PyVal.intV 2], [PyVal.intV 3]]
    wOpenNoTxW wC4W [r1W, r1W, r1W] r1W (by simp) rfl rfl rfl (by decide)

/-- The world carried by the error of a failing one-row batch on
`nbFailW`. -/
def wErrW : World := ⟨⟨true, true, []⟩, freshCursor,
  [r"BEGIN", r"INSERT INTO t VALUES(1)"]⟩

theorem pgdb_C5_witness :
    wErrW.conn.tnx = true ∧
      ∃ rest, wErrW.trace = wOpenNoTxW.trace ++ rest ∧ r"ROLLBACK" ∉ rest := by
  have hnr : ∀ ps, ps ∈ [[PyVal.intV 1]] → ∀ s, substSql opW ps = some s →
      s ≠ r"ROLLBACK" := by
    intro ps hps s hsub
    simp at hps
    subst hps
    have hv : substSql opW [PyVal.intV 1] = some (r"INSERT INTO t VALUES(1)") := rfl
    rw [hv] at hsub
    injection hsub with hsub
    subst hsub
    decide
  exact pgdb_C5 nbFailW opW [[PyVal.intV 1]] wOpenNoTxW
    (.databaseError (r"boom")) wErrW rfl (Or.inr ⟨rbW, rfl⟩) hnr

theorem pgdb_C6_witness :
    Connection.commit nbOkW wClosedW
      = .error (_op_error (r"connection has been closed"), wClosedW) :=
  (pgdb_C6 nbOkW true wClosedW rfl).2.1

theorem pgdb_C7_witness :
    ∃ w', Connection.close nbDownW wOpenTxW = .ok w' ∧ w'.conn.cnxOpen = false ∧
      w'.conn.tnx = false ∧ w'.trace = wOpenTxW.trace ++ [r"ROLLBACK"] :=
  pgdb_C7 nbDownW wOpenTxW rfl rfl

/-- A concrete catalog oracle. -/
def catW : Nat → String × Int := fun _ => (r"int4", 4)

/-- A pre-existing cache entry. -/
def wBoolD : TypeDescr := ⟨r"bool", 1⟩

theorem pgdb_C9_witness :
    ((TypeCache.getdescr catW [(5, wBoolD)] [] 23).2.1.lookup 5 = some wBoolD) ∧
    (TypeCache.getdescr catW (TypeCache.getdescr catW [] [] 23).2.1 [catalogSql 23] 23
      = ((TypeCache.getdescr catW [] [] 23).1,
          (TypeCache.getdescr catW [] [] 23).2.1, [catalogSql 23])) :=
  ⟨(pgdb_C9 catW [(5, wBoolD)] [] 23).2.2.1 5 wBoolD rfl,
   (pgdb_C9 catW [] [] 23).2.2.2 [catalogSql 23]⟩

/-- The world carried by the error of a failing `COMMIT` on `nbDownW`. -/
def wC10W : World := ⟨⟨true, false, []⟩, freshCursor, [r"COMMIT"]⟩

theorem pgdb_C10_witness :
    (outWorld (Connection.commit nbDownW wOpenTxW)).conn.tnx = false ∧
    Connection.commit nbDownW wC10W = .ok wC10W := by
  have h := pgdb_C10 nbDownW wOpenTxW rfl rfl
  exact ⟨h.1.1, (h.2.2.1 (.databaseError (r"down")) wC10W rfl).1⟩
